import Mathlib

/-!
# Workout-Lists: a shallow embedding of `src/script.js`

The script defines three classes of workout records (`Workout`, `Running`,
`Cycling`) and one controller class (`App`) that keeps the list of records,
mirrors it into `localStorage` and reacts to browser events.

Modelling conventions

* JavaScript numbers are exact: a number is a rational, `NaN`, `+Infinity` or
  `-Infinity` (no rounding, no signed zero), and `/` is the exact quotient.
  Where a statement must hold for the quotient a double gives as well, which
  can be rounded or be an infinity, it is made for every number the field can
  hold (`Running.withPace`, `Cycling.withSpeed`).
* A JavaScript value is a tree (`JSVal`); objects carry the name of their class
  and their own properties in insertion order.
* Text kept in `localStorage` is identified with what `JSON.parse` makes of it:
  either the text is not a JSON document, or it denotes a JSON tree (`Json`).
* A method of `App` is a function from the state of the page (`World`) to the
  new state together with the way the call ended (`Completion`), so that the
  effects made before an exception are kept.
* The HTML and the Leaflet layers are recorded by the values they were given,
  not by the text or pixels they produce.
-/

namespace WorkoutLists

/-! ## Numbers -/

/-- A JavaScript number in exact arithmetic. -/
inductive JSNum where
  | fin (q : ℚ)
  | nan
  | posInf
  | negInf
  deriving DecidableEq

namespace JSNum

/-- The test `Number.isFinite(inp)`. -/
def isFinite : JSNum → Bool
  | fin _ => true
  | _ => false

/-- The comparison `inp > 0`. -/
def gtZero : JSNum → Bool
  | fin q => decide (0 < q)
  | posInf => true
  | _ => false

/-- The comparison `inp <= 0`. -/
def leZero : JSNum → Bool
  | fin q => decide (q ≤ 0)
  | negInf => true
  | _ => false

/-- The comparison `inp >= 0`. -/
def geZero : JSNum → Bool
  | fin q => decide (0 ≤ q)
  | posInf => true
  | _ => false

/-- The operator `a / b` on numbers. -/
def div : JSNum → JSNum → JSNum
  | nan, _ => nan
  | _, nan => nan
  | fin a, fin b =>
    if b = 0 then (if a = 0 then nan else if 0 < a then posInf else negInf)
    else fin (a / b)
  | fin _, posInf => fin 0
  | fin _, negInf => fin 0
  | posInf, fin b => if 0 ≤ b then posInf else negInf
  | negInf, fin b => if 0 ≤ b then negInf else posInf
  | posInf, posInf => nan
  | posInf, negInf => nan
  | negInf, posInf => nan
  | negInf, negInf => nan

end JSNum

/-! ## Values and JSON documents -/

/-- A JavaScript value. `date ms` is a `Date` object whose time value is `ms`
milliseconds since the epoch; `obj cls props` is an object of class `cls` with
own enumerable properties `props`, in insertion order. -/
inductive JSVal where
  | undefined
  | null
  | bool (b : Bool)
  | num (n : JSNum)
  | str (s : String)
  | date (ms : Int)
  | arr (xs : List JSVal)
  | obj (cls : String) (props : List (String × JSVal))

/-- A JSON document, as a tree. A number is the number `JSON.parse` reads its
literal as: an infinity for a literal beyond the range of the numbers, such as
`1e999`. -/
inductive Json where
  | null
  | bool (b : Bool)
  | num (n : JSNum)
  | str (s : String)
  | arr (xs : List Json)
  | obj (props : List (String × Json))

/-- The text held by a `localStorage` slot, up to what `JSON.parse` makes of
it: text that is not a JSON document, or text denoting the document `doc`. -/
inductive StoredText where
  | malformed
  | json (doc : Json)

/-- The exceptions the script can meet. -/
inductive JSError where
  | typeError
  | syntaxError
  deriving DecidableEq

/-- How a call ended: it returned, it returned after `alert(msg)`, or it
threw. -/
inductive Completion where
  | normal
  | alerted (msg : String)
  | threw (e : JSError)
  deriving DecidableEq

namespace JSVal

/-- Reading a data property, `v.key`: a `TypeError` on `undefined` and `null`,
the own property of an object, and `undefined` otherwise (the script reads no
`length` and no index). -/
def get : JSVal → String → Except JSError JSVal
  | undefined, _ => .error .typeError
  | null, _ => .error .typeError
  | obj _ props, key =>
    match props.lookup key with
    | some v => .ok v
    | none => .ok undefined
  | _, _ => .ok undefined

/-- The strict comparison `v === s` against a string. -/
def strictEqStr : JSVal → String → Bool
  | str t, s => decide (t = s)
  | _, _ => false

/-- The truthiness test as in `!data`. -/
def truthy : JSVal → Bool
  | undefined => false
  | null => false
  | bool b => b
  | num (.fin q) => decide (q ≠ 0)
  | num .nan => false
  | num _ => true
  | str s => decide (s ≠ "")
  | _ => true

/-- The call `v.toFixed(1)`, kept for whether it throws: it is a method of
numbers only. -/
def toFixed : JSVal → Except JSError Unit
  | num _ => .ok ()
  | _ => .error .typeError

end JSVal

/-! ## Dates -/

namespace Date

/-- The month names of `_setDescription`. -/
def months : List String :=
  ["January", "February", "March", "April", "May", "June", "July", "August",
   "September", "October", "November", "December"]

/-- The civil date (year, month index from 0, day of month) of a time value. -/
def civil (ms : Int) : Int × Nat × Nat :=
  let z := ms / 86400000 + 719468
  let era := z / 146097
  let doe := (z % 146097).toNat
  let yoe := (doe - doe / 1460 + doe / 36524 - doe / 146096) / 365
  let doy := doe - (365 * yoe + yoe / 4 - yoe / 100)
  let mp := (5 * doy + 2) / 153
  let d := doy - (153 * mp + 2) / 5 + 1
  let m := if mp < 10 then mp + 3 else mp - 9
  let y := (yoe : Int) + era * 400 + (if m ≤ 2 then 1 else 0)
  (y, m - 1, d)

/-- A natural number in decimal, padded with zeros on the left. -/
def pad (width n : Nat) : String :=
  let s := toString n
  String.mk (List.replicate (width - s.length) '0' ++ s.data)

/-- The year of an ISO date: four digits, or a sign and six digits. -/
def isoYear (y : Int) : String :=
  if 0 ≤ y ∧ y ≤ 9999 then pad 4 y.toNat
  else if 0 ≤ y then "+" ++ pad 6 y.toNat
  else "-" ++ pad 6 (-y).toNat

/-- The method `toISOString()`, which `JSON.stringify` uses for a `Date`. -/
def toISOString (ms : Int) : String :=
  let c := civil ms
  let t := (ms % 86400000).toNat
  isoYear c.1 ++ "-" ++ pad 2 (c.2.1 + 1) ++ "-" ++ pad 2 c.2.2 ++ "T" ++
    pad 2 (t / 3600000) ++ ":" ++ pad 2 (t / 60000 % 60) ++ ":" ++
    pad 2 (t / 1000 % 60) ++ "." ++ pad 3 (t % 1000) ++ "Z"

/-- The method `getMonth()` in a zone `offsetMin` minutes east of UTC. -/
def getMonth (ms offsetMin : Int) : Nat :=
  (civil (ms + offsetMin * 60000)).2.1

/-- The method `getDate()` in a zone `offsetMin` minutes east of UTC. -/
def getDate (ms offsetMin : Int) : Nat :=
  (civil (ms + offsetMin * 60000)).2.2

end Date

/-! ## JSON -/

mutual
/-- The document `JSON.stringify(v)` writes; `none` when the result is
`undefined`. A `Date` is written through `toISOString`, a number that is not
finite as `null`. -/
def JSON.stringify : JSVal → Option Json
  | .undefined => none
  | .null => some .null
  | .bool b => some (.bool b)
  | .num (.fin q) => some (.num (.fin q))
  | .num _ => some .null
  | .str s => some (.str s)
  | .date ms => some (.str (Date.toISOString ms))
  | .arr xs => some (.arr (JSON.stringifyElems xs))
  | .obj _ props => some (.obj (JSON.stringifyProps props))
/-- The elements of an array: `undefined` is written as `null`. -/
def JSON.stringifyElems : List JSVal → List Json
  | [] => []
  | x :: xs =>
    (match JSON.stringify x with
      | some j => j
      | none => .null) :: JSON.stringifyElems xs
/-- The properties of an object: a property holding `undefined` is left out. -/
def JSON.stringifyProps : List (String × JSVal) → List (String × Json)
  | [] => []
  | (k, x) :: rest =>
    match JSON.stringify x with
    | some j => (k, j) :: JSON.stringifyProps rest
    | none => JSON.stringifyProps rest
end

mutual
/-- The value `JSON.parse` builds from a document: plain objects, arrays and
primitives. -/
def JSVal.ofJson : Json → JSVal
  | .null => .null
  | .bool b => .bool b
  | .num n => .num n
  | .str s => .str s
  | .arr xs => .arr (JSVal.ofJsonElems xs)
  | .obj props => .obj "Object" (JSVal.ofJsonProps props)
/-- The elements of a parsed array. -/
def JSVal.ofJsonElems : List Json → List JSVal
  | [] => []
  | x :: xs => JSVal.ofJson x :: JSVal.ofJsonElems xs
/-- The properties of a parsed object. -/
def JSVal.ofJsonProps : List (String × Json) → List (String × JSVal)
  | [] => []
  | (k, x) :: rest => (k, JSVal.ofJson x) :: JSVal.ofJsonProps rest
end

mutual
/-- The value with every number that is not finite replaced by `null`, at any
depth; everything else is kept. -/
def JSVal.nullified : JSVal → JSVal
  | .num (.fin q) => .num (.fin q)
  | .num _ => .null
  | .arr xs => .arr (JSVal.nullifiedElems xs)
  | .obj cls props => .obj cls (JSVal.nullifiedProps props)
  | .undefined => .undefined
  | .null => .null
  | .bool b => .bool b
  | .str s => .str s
  | .date ms => .date ms
/-- The elements of an array, each with `nullified`. -/
def JSVal.nullifiedElems : List JSVal → List JSVal
  | [] => []
  | x :: xs => JSVal.nullified x :: JSVal.nullifiedElems xs
/-- The properties of an object, each with `nullified`. -/
def JSVal.nullifiedProps : List (String × JSVal) → List (String × JSVal)
  | [] => []
  | (k, x) :: rest => (k, JSVal.nullified x) :: JSVal.nullifiedProps rest
end

/-- The call `JSON.parse(localStorage.getItem(key))`: an absent slot gives
`null`, which is read as the text of the document `null`. -/
def JSON.parse : Option StoredText → Except JSError JSVal
  | none => .ok .null
  | some .malformed => .error .syntaxError
  | some (.json doc) => .ok (JSVal.ofJson doc)

/-! ## The workout classes -/

/-- The two readings of the clock a constructor makes, and the local zone. -/
structure Clock where
  /-- the time value of `new Date()` -/
  date : Int
  /-- the value of `Date.now()` -/
  now : Int
  /-- minutes east of UTC of the local zone -/
  offsetMin : Int

/-- The field `id = (Date.now() + '').slice(-10)`. -/
def Workout.id (now : Int) : String :=
  let s := toString now
  String.mk (s.data.drop (s.length - 10))

/-- The text built by `_setDescription` from `type` and `date`. -/
def Workout._setDescription (type : String) (clk : Clock) : String :=
  String.mk ((type.data.take 1).map Char.toUpper ++ type.data.drop 1) ++ " on " ++
    (Date.months.get? (Date.getMonth clk.date clk.offsetMin)).getD "undefined" ++ " " ++
    toString (Date.getDate clk.date clk.offsetMin)

/-- The method `calcPace` of `Running`: `this.distance / this.duration`. -/
def Running.calcPace (distance duration : JSNum) : JSNum :=
  distance.div duration

/-- The method `calcSpeed` of `Cycling`:
`this.distance / (this.duration / 60)`. -/
def Cycling.calcSpeed (distance duration : JSNum) : JSNum :=
  distance.div (duration.div (.fin 60))

/-- The object `new Running(coords, distance, duration, cadence)`. -/
def Running.new (clk : Clock) (coords : JSVal) (distance duration cadence : JSNum) :
    JSVal :=
  .obj "Running"
    [("date", .date clk.date),
     ("id", .str (Workout.id clk.now)),
     ("coords", coords),
     ("distance", .num distance),
     ("duration", .num duration),
     ("type", .str "running"),
     ("cadence", .num cadence),
     ("pace", .num (Running.calcPace distance duration)),
     ("description", .str (Workout._setDescription "running" clk))]

/-- The object `new Running(...)` with `pace` standing for the number the
division of `calcPace` stored: the exact quotient, or what a double makes of
it (a rounded quotient, `Infinity` on overflow, 0 on underflow). -/
def Running.withPace (clk : Clock) (coords : JSVal) (distance duration cadence : JSNum)
    (pace : JSNum) : JSVal :=
  .obj "Running"
    [("date", .date clk.date),
     ("id", .str (Workout.id clk.now)),
     ("coords", coords),
     ("distance", .num distance),
     ("duration", .num duration),
     ("type", .str "running"),
     ("cadence", .num cadence),
     ("pace", .num pace),
     ("description", .str (Workout._setDescription "running" clk))]

/-- The object `new Cycling(coords, distance, duration, elevationGain)`. -/
def Cycling.new (clk : Clock) (coords : JSVal) (distance duration elevationGain : JSNum) :
    JSVal :=
  .obj "Cycling"
    [("date", .date clk.date),
     ("id", .str (Workout.id clk.now)),
     ("coords", coords),
     ("distance", .num distance),
     ("duration", .num duration),
     ("type", .str "cycling"),
     ("elevationGain", .num elevationGain),
     ("speed", .num (Cycling.calcSpeed distance duration)),
     ("description", .str (Workout._setDescription "cycling" clk))]

/-- The object `new Cycling(...)` with `speed` standing for the number the
divisions of `calcSpeed` stored: the exact quotient, or what a double makes of
it. -/
def Cycling.withSpeed (clk : Clock) (coords : JSVal)
    (distance duration elevationGain : JSNum) (speed : JSNum) : JSVal :=
  .obj "Cycling"
    [("date", .date clk.date),
     ("id", .str (Workout.id clk.now)),
     ("coords", coords),
     ("distance", .num distance),
     ("duration", .num duration),
     ("type", .str "cycling"),
     ("elevationGain", .num elevationGain),
     ("speed", .num speed),
     ("description", .str (Workout._setDescription "cycling" clk))]

/-! ## The page -/

/-- A Leaflet position, as in `mapEvent.latlng` and `position.coords`. -/
structure LatLng where
  lat : ℚ
  lng : ℚ

/-- The array `[lat, lng]`. -/
def LatLng.toCoords (p : LatLng) : JSVal :=
  .arr [.num (.fin p.lat), .num (.fin p.lng)]

/-- A marker put on the map: the one of `_loadMap`, or the one of a workout. -/
inductive Marker where
  | here (coords : JSVal)
  | ofWorkout (workout : JSVal)

/-- The Leaflet map: where the view is, and the markers added to it. -/
structure LMap where
  center : JSVal
  zoom : Nat
  markers : List Marker

/-- The values read from the form by `_newWorkout`, after the unary `+`. -/
structure Form where
  /-- the text `inputType.value` -/
  type : String
  distance : JSNum
  duration : JSNum
  cadence : JSNum
  elevation : JSNum

/-- What the page is when the script starts. -/
structure Page where
  /-- the slot `workouts` of `localStorage` -/
  slot : Option StoredText
  /-- whether `navigator.geolocation` is there -/
  geolocation : Bool
  /-- whether the form carries the class `hidden` -/
  formHidden : Bool

/-- The state of the page: the private fields of `App`, the slot `workouts` of
`localStorage`, and what was rendered. -/
structure World where
  /-- the field `#map`, `undefined` until `_loadMap` -/
  map : Option LMap
  /-- the field `#mapZoomLevel` -/
  mapZoomLevel : Nat
  /-- the field `#mapEvent`, `undefined` until `_showForm` -/
  mapEvent : Option LatLng
  /-- the field `#workouts` -/
  workouts : JSVal
  /-- the slot `workouts` of `localStorage`, `none` when absent -/
  storage : Option StoredText
  /-- the workouts rendered after the form, newest first -/
  list : List JSVal
  /-- whether the form carries the class `hidden` -/
  formHidden : Bool
  /-- whether a request for the position is pending -/
  locating : Bool

namespace App

/-- The closure `validInputs` of `_newWorkout`. -/
def validInputs (inputs : List JSNum) : Bool :=
  inputs.all JSNum.isFinite

/-- The closure `allPositive` of `_newWorkout`. -/
def allPositive (inputs : List JSNum) : Bool :=
  inputs.all JSNum.gtZero

/-- The method `_getPosition`. -/
def _getPosition (w : World) (geolocation : Bool) : World :=
  if geolocation then { w with locating := true } else w

/-- The method `_showForm`. -/
def _showForm (w : World) (mapE : LatLng) : World :=
  { w with mapEvent := some mapE, formHidden := false }

/-- The method `_hideForm`. -/
def _hideForm (w : World) : World :=
  { w with formHidden := true }

/-- The method `_renderWorkoutMarker`: `L.marker(workout.coords)` is added to
`#map`. -/
def _renderWorkoutMarker (w : World) (workout : JSVal) : World × Completion :=
  match workout.get "coords" with
  | .error e => (w, .threw e)
  | .ok _ =>
    match w.map with
    | none => (w, .threw .typeError)
    | some m =>
      ({ w with map := some { m with markers := m.markers ++ [.ofWorkout workout] } },
        .normal)

/-- The method `_rendeWorkout`: the item is built, which reads `type` and
calls `pace.toFixed(1)` or `speed.toFixed(1)`, and put after the form. -/
def _rendeWorkout (w : World) (workout : JSVal) : World × Completion :=
  match workout.get "type" with
  | .error e => (w, .threw e)
  | .ok type =>
    match (if type.strictEqStr "running" then (workout.get "pace").bind JSVal.toFixed
           else .ok ()) with
    | .error e => (w, .threw e)
    | .ok _ =>
      match (if type.strictEqStr "cycling" then (workout.get "speed").bind JSVal.toFixed
             else .ok ()) with
      | .error e => (w, .threw e)
      | .ok _ => ({ w with list := workout :: w.list }, .normal)

/-- The method `_setLocalStorage`. When `JSON.stringify` gives `undefined`,
`setItem` stores the text `undefined`, which is not a JSON document. -/
def _setLocalStorage (w : World) : World :=
  { w with
    storage := some (match JSON.stringify w.workouts with
      | some doc => .json doc
      | none => .malformed) }

/-- The loop `forEach(data => this._rendeWorkout(data))`. -/
def forEachRende : World → List JSVal → World × Completion
  | w, [] => (w, .normal)
  | w, data :: rest =>
    match _rendeWorkout w data with
    | (w1, .normal) => forEachRende w1 rest
    | r => r

/-- The loop `forEach(data => this._renderWorkoutMarker(data))`. -/
def forEachMarker : World → List JSVal → World × Completion
  | w, [] => (w, .normal)
  | w, data :: rest =>
    match _renderWorkoutMarker w data with
    | (w1, .normal) => forEachMarker w1 rest
    | r => r

/-- The method `_getLocalStorage`. -/
def _getLocalStorage (w : World) : World × Completion :=
  match JSON.parse w.storage with
  | .error e => (w, .threw e)
  | .ok data =>
    if !data.truthy then (w, .normal)
    else
      match data with
      | .arr xs => forEachRende { w with workouts := data } xs
      | _ => ({ w with workouts := data }, .threw .typeError)

/-- The method `_loadMap`. -/
def _loadMap (w : World) (position : LatLng) : World × Completion :=
  let coords := position.toCoords
  let w1 := { w with
    map := some { center := coords, zoom := w.mapZoomLevel, markers := [.here coords] } }
  match w1.workouts with
  | .arr xs => forEachMarker w1 xs
  | _ => (w1, .threw .typeError)

/-- The statements of `_newWorkout` from `this.#workouts.push(workout)` on. -/
def pushAndRender (w : World) (workout : JSVal) : World × Completion :=
  match w.workouts with
  | .arr xs =>
    match _renderWorkoutMarker { w with workouts := .arr (xs ++ [workout]) } workout with
    | (w2, .normal) =>
      match _rendeWorkout w2 workout with
      | (w3, .normal) => (_setLocalStorage (_hideForm w3), .normal)
      | r => r
    | r => r
  | _ => (w, .threw .typeError)

/-- The method `_newWorkout`. Each of the two `if` blocks either returns with
the alert (`none`) or leaves a value in the variable `workout`. -/
def _newWorkout (w : World) (f : Form) (clk : Clock) : World × Completion :=
  match w.mapEvent with
  | none => (w, .threw .typeError)
  | some latlng =>
    let coords := latlng.toCoords
    let afterRunning : Option JSVal :=
      if f.type = "running" then
        if !validInputs [f.distance, f.duration, f.cadence] ||
            !allPositive [f.distance, f.duration, f.cadence] then none
        else some (Running.new clk coords f.distance f.duration f.cadence)
      else some .undefined
    match afterRunning with
    | none => (w, .alerted "Input is not valid!")
    | some workout1 =>
      let afterCycling : Option JSVal :=
        if f.type = "cycling" then
          if !validInputs [f.distance, f.duration, f.elevation] ||
              !allPositive [f.distance, f.duration] then none
          else some (Cycling.new clk coords f.distance f.duration f.elevation)
        else some workout1
      match afterCycling with
      | none => (w, .alerted "Input is not valid!")
      | some workout => pushAndRender w workout

/-- The search `this.#workouts.find(work => work.id === id)`. -/
def find : List JSVal → String → Except JSError JSVal
  | [], _ => .ok .undefined
  | work :: rest, id =>
    match work.get "id" with
    | .error e => .error e
    | .ok v => if v.strictEqStr id then .ok work else find rest id

/-- The method `_moveToPopup`; `target` is the `data-id` of the closest
`.workout` element of the click, `none` when there is no such element. -/
def _moveToPopup (w : World) (target : Option String) : World × Completion :=
  match target with
  | none => (w, .normal)
  | some id =>
    match (match w.workouts with
      | .arr xs => find xs id
      | _ => .error .typeError) with
    | .error e => (w, .threw e)
    | .ok workout =>
      match w.map with
      | none => (w, .threw .typeError)
      | some m =>
        match workout.get "coords" with
        | .error e => (w, .threw e)
        | .ok coords =>
          ({ w with map := some { m with center := coords, zoom := w.mapZoomLevel } },
            .normal)

/-- The fields of a new `App` and the page it finds, before its constructor
runs. -/
def initial (page : Page) : World :=
  { map := none, mapZoomLevel := 13, mapEvent := none, workouts := .arr [],
    storage := page.slot, list := [], formHidden := page.formHidden, locating := false }

/-- The constructor of `App`, up to the registration of the handlers. -/
def new (page : Page) : World × Completion :=
  _getLocalStorage (_getPosition (initial page) page.geolocation)

/-- The answer of the browser to `getCurrentPosition`: `_loadMap` runs once. -/
def onPosition (w : World) (position : LatLng) : World × Completion :=
  if w.locating then _loadMap { w with locating := false } position else (w, .normal)

/-- A click on the map: `_showForm` runs once `_loadMap` has registered it. -/
def onMapClick (w : World) (mapE : LatLng) : World × Completion :=
  match w.map with
  | some _ => (_showForm w mapE, .normal)
  | none => (w, .normal)

/-- What `_setLocalStorage` wrote for the list `ws`, read back the way
`_getLocalStorage` reads it. -/
def readBack (w : World) (ws : List JSVal) : Except JSError JSVal :=
  JSON.parse (_setLocalStorage { w with workouts := .arr ws }).storage

end App

/-- The states the page goes through once the constructor of `App` has
returned: the answer to the position request, clicks on the map and on the
list, and submissions of the form that are rejected or accepted. The flag
tells whether a submission has been accepted. -/
inductive Reached : Bool → World → Prop where
  | startup (page : Page) (w : World) :
      App.new page = (w, .normal) → Reached false w
  | position (b : Bool) (w : World) (p : LatLng) :
      Reached b w → Reached b (App.onPosition w p).1
  | mapClick (b : Bool) (w : World) (p : LatLng) :
      Reached b w → Reached b (App.onMapClick w p).1
  | listClick (b : Bool) (w : World) (target : Option String) :
      Reached b w → Reached b (App._moveToPopup w target).1
  | rejected (b : Bool) (w w2 : World) (f : Form) (clk : Clock) (msg : String) :
      Reached b w → App._newWorkout w f clk = (w2, .alerted msg) → Reached b w2
  | accepted (b : Bool) (w w2 : World) (f : Form) (clk : Clock) :
      Reached b w → App._newWorkout w f clk = (w2, .normal) → Reached true w2

/-- The workouts the list of `App` can hold: a record built by `_newWorkout`
from inputs that passed its validation, whatever number its division stored as
the derived metric, or a value read from the slot. -/
inductive Held : JSVal → Prop where
  | running (clk : Clock) (latlng : LatLng) (d t c : ℚ) (pace : JSNum) :
      0 < d → 0 < t → 0 < c →
      Held (Running.withPace clk latlng.toCoords (.fin d) (.fin t) (.fin c) pace)
  | cycling (clk : Clock) (latlng : LatLng) (d t e : ℚ) (speed : JSNum) :
      0 < d → 0 < t →
      Held (Cycling.withSpeed clk latlng.toCoords (.fin d) (.fin t) (.fin e) speed)
  | loaded (doc : Json) : Held (JSVal.ofJson doc)

/-- The names of the fields of a workout other than the creation date. -/
def Workout.fields : List String :=
  ["id", "coords", "distance", "duration", "type", "cadence", "elevationGain", "pace",
   "speed", "description"]

/-- The value `r2` read back for the workout `r`. When the creation date of `r`
is a `Date`, `r2` holds the text `toISOString` gives for it, and every other
field of `r2` has the value it has in `r`, but for a number that is not finite,
which is `null` in `r2`. Otherwise `r2` is `r` itself, again with `null` for
every number that is not finite. -/
def Workout.ReadsAs (r r2 : JSVal) : Prop :=
  match r.get "date" with
  | .ok (.date ms) =>
    r2.get "date" = .ok (.str (Date.toISOString ms)) ∧
      ∀ key ∈ Workout.fields, r2.get key = (r.get key).map JSVal.nullified
  | _ => r2 = r.nullified

/-! ## Sample inputs -/

namespace Sample

/-- A clock reading: 14 November 2023, 22:13:20 UTC. -/
def clock1 : Clock := { date := 1700000000000, now := 1700000000000, offsetMin := 0 }

/-- A later clock reading, ten thousand million milliseconds after `clock1`:
9 March 2024, 16:00:00 UTC. -/
def clock2 : Clock := { date := 1710000000000, now := 1710000000000, offsetMin := 0 }

/-- The page after a start with an empty slot, the position found at (1, 2)
and a click on the map at (10, 20): the form is open. -/
def awaiting : World :=
  { map := some
      { center := .arr [.num (.fin 1), .num (.fin 2)], zoom := 13,
        markers := [.here (.arr [.num (.fin 1), .num (.fin 2)])] },
    mapZoomLevel := 13, mapEvent := some { lat := 10, lng := 20 },
    workouts := .arr [], storage := none, list := [], formHidden := false,
    locating := false }

/-- A running submission: 5 km in 30 min at 178 steps per minute. -/
def runForm : Form :=
  { type := "running", distance := .fin 5, duration := .fin 30, cadence := .fin 178,
    elevation := .fin 0 }

/-- A cycling submission: 20 km in 60 min, the elevation gain given. -/
def cycForm (elevation : JSNum) : Form :=
  { type := "cycling", distance := .fin 20, duration := .fin 60, cadence := .fin 0,
    elevation := elevation }

/-- The page after a start with an empty slot: no place on the map has been
chosen yet. -/
def idle : World :=
  { map := none, mapZoomLevel := 13, mapEvent := none, workouts := .arr [],
    storage := none, list := [], formHidden := true, locating := true }

/-- A running submission with a distance of zero. -/
def badForm : Form :=
  { type := "running", distance := .fin 0, duration := .fin 30, cadence := .fin 178,
    elevation := .fin 0 }

/-- The record of `runForm` submitted on `awaiting` at `clock1`. -/
def run1 : JSVal :=
  Running.new clock1 (.arr [.num (.fin 10), .num (.fin 20)]) (.fin 5) (.fin 30) (.fin 178)

/-- The record of `cycForm (fin 0)` submitted after a click at (10, 20) at
`clock2`. -/
def cyc2 : JSVal :=
  Cycling.new clock2 (.arr [.num (.fin 10), .num (.fin 20)]) (.fin 20) (.fin 60) (.fin 0)

/-- A Running record of 2^1000 km in 2^-1000 min, whose pace a double stores
as `Infinity`. -/
def over1 : JSVal :=
  Running.withPace clock1 (.arr [.num (.fin 10), .num (.fin 20)]) (.fin (2 ^ 1000))
    (.fin (1 / 2 ^ 1000)) (.fin 1) .posInf

/-- The record `run1` as it is read back from the slot. -/
def run1Read : JSVal :=
  .obj "Object"
    [("date", .str "2023-11-14T22:13:20.000Z"),
     ("id", .str "0000000000"),
     ("coords", .arr [.num (.fin 10), .num (.fin 20)]),
     ("distance", .num (.fin 5)),
     ("duration", .num (.fin 30)),
     ("type", .str "running"),
     ("cadence", .num (.fin 178)),
     ("pace", .num (.fin (5 / 30))),
     ("description", .str "Running on November 14")]

/-- The page after `runForm` was submitted on `awaiting` at `clock1`. -/
def logged1 : World :=
  { map := some
      { center := .arr [.num (.fin 1), .num (.fin 2)], zoom := 13,
        markers := [.here (.arr [.num (.fin 1), .num (.fin 2)]), .ofWorkout run1] },
    mapZoomLevel := 13, mapEvent := some { lat := 10, lng := 20 },
    workouts := .arr [run1],
    storage := some (.json (.arr (JSON.stringifyElems [run1]))),
    list := [run1], formHidden := true, locating := false }

/-- The page after a further click on the map at (10, 20) and the submission
of `cycForm (fin 0)` at `clock2`. -/
def logged2 : World :=
  { map := some
      { center := .arr [.num (.fin 1), .num (.fin 2)], zoom := 13,
        markers := [.here (.arr [.num (.fin 1), .num (.fin 2)]), .ofWorkout run1,
          .ofWorkout cyc2] },
    mapZoomLevel := 13, mapEvent := some { lat := 10, lng := 20 },
    workouts := .arr [run1, cyc2],
    storage := some (.json (.arr (JSON.stringifyElems [run1, cyc2]))),
    list := [cyc2, run1], formHidden := true, locating := false }

end Sample


/-! ## Lemmas on the methods -/

theorem JSNum.gtZero_of_leZero (n : JSNum) (h : n.leZero = true) : n.gtZero = false := by
  cases n <;> simp_all [JSNum.leZero, JSNum.gtZero]

theorem App.renderWorkoutMarker_keeps (w : World) (r : JSVal) :
    (App._renderWorkoutMarker w r).1.workouts = w.workouts ∧
    (App._renderWorkoutMarker w r).1.storage = w.storage := by
  unfold App._renderWorkoutMarker
  split
  · simp
  · split <;> simp

theorem App.rendeWorkout_keeps (w : World) (r : JSVal) :
    (App._rendeWorkout w r).1.workouts = w.workouts ∧
    (App._rendeWorkout w r).1.storage = w.storage := by
  unfold App._rendeWorkout
  split
  · simp
  · split
    · simp
    · split <;> simp

theorem App.pushAndRender_normal (w w2 : World) (r : JSVal)
    (h : App.pushAndRender w r = (w2, .normal)) :
    ∃ xs, w.workouts = .arr xs ∧ w2.workouts = .arr (xs ++ [r]) ∧
      w2.storage = some (.json (.arr (JSON.stringifyElems (xs ++ [r])))) := by
  unfold App.pushAndRender at h
  split at h
  next xs hxs =>
    refine ⟨xs, hxs, ?_⟩
    have k1 := App.renderWorkoutMarker_keeps { w with workouts := .arr (xs ++ [r]) } r
    generalize App._renderWorkoutMarker { w with workouts := .arr (xs ++ [r]) } r = p1 at h k1
    obtain ⟨a, c⟩ := p1
    cases c with
    | normal =>
      simp only at h
      have k2 := App.rendeWorkout_keeps a r
      generalize App._rendeWorkout a r = p2 at h k2
      obtain ⟨a2, c2⟩ := p2
      cases c2 with
      | normal =>
        simp only [Prod.mk.injEq, and_true] at h
        subst h
        simp only at k1 k2
        simp [App._setLocalStorage, App._hideForm, k1.1, k2.1, JSON.stringify]
      | alerted msg => simp at h
      | threw e => simp at h
    | alerted msg => simp at h
    | threw e => simp at h
  next => simp at h

/-- A submission that pushes `undefined` (a type that is neither `running` nor
`cycling`) throws in `_renderWorkoutMarker`. -/
theorem App.pushAndRender_undefined (w w2 : World) :
    App.pushAndRender w .undefined ≠ (w2, .normal) := by
  unfold App.pushAndRender
  split
  · simp [App._renderWorkoutMarker, JSVal.get]
  · simp

/-- The method `_newWorkout` once a place on the map has been chosen, as one
decision on the type read from the form. -/
theorem App.newWorkout_eq (w : World) (f : Form) (clk : Clock) (latlng : LatLng)
    (hev : w.mapEvent = some latlng) :
    App._newWorkout w f clk =
      if f.type = "running" then
        if (!App.validInputs [f.distance, f.duration, f.cadence] ||
            !App.allPositive [f.distance, f.duration, f.cadence]) = true then
          (w, .alerted "Input is not valid!")
        else
          App.pushAndRender w
            (Running.new clk latlng.toCoords f.distance f.duration f.cadence)
      else if f.type = "cycling" then
        if (!App.validInputs [f.distance, f.duration, f.elevation] ||
            !App.allPositive [f.distance, f.duration]) = true then
          (w, .alerted "Input is not valid!")
        else
          App.pushAndRender w
            (Cycling.new clk latlng.toCoords f.distance f.duration f.elevation)
      else App.pushAndRender w .undefined := by
  have hne : ("running" : String) ≠ "cycling" := by decide
  unfold App._newWorkout
  rw [hev]
  by_cases hr : f.type = "running"
  · by_cases b : (!App.validInputs [f.distance, f.duration, f.cadence] ||
        !App.allPositive [f.distance, f.duration, f.cadence]) = true
    · simp [hr, b]
    · simp [hr, b, hne]
  · by_cases hc : f.type = "cycling"
    · by_cases b : (!App.validInputs [f.distance, f.duration, f.elevation] ||
          !App.allPositive [f.distance, f.duration]) = true
      · simp [hc, b]
      · simp [hr, hc, b]
    · simp [hr, hc]

/-- The statements of `_newWorkout` after the validation raise no alert. -/
theorem App.pushAndRender_not_alerted (w w2 : World) (r : JSVal) (msg : String) :
    App.pushAndRender w r ≠ (w2, .alerted msg) := by
  intro h
  have e1 : ∀ a b, (App._renderWorkoutMarker a b).2 ≠ .alerted msg := by
    intro a b
    unfold App._renderWorkoutMarker
    split
    · simp
    · split <;> simp
  have e2 : ∀ a b, (App._rendeWorkout a b).2 ≠ .alerted msg := by
    intro a b
    unfold App._rendeWorkout
    split
    · simp
    · split
      · simp
      · split <;> simp
  unfold App.pushAndRender at h
  split at h
  next xs hxs =>
    have k1 := e1 { w with workouts := .arr (xs ++ [r]) } r
    generalize App._renderWorkoutMarker { w with workouts := .arr (xs ++ [r]) } r = p1 at h k1
    obtain ⟨a, c⟩ := p1
    cases c with
    | normal =>
      simp only at h
      have k2 := e2 a r
      generalize App._rendeWorkout a r = p2 at h k2
      obtain ⟨a2, c2⟩ := p2
      cases c2 with
      | normal => simp at h
      | alerted m2 =>
        simp only [Prod.mk.injEq, Completion.alerted.injEq] at h
        exact k2 (by simp [h.2])
      | threw e => simp at h
    | alerted m1 =>
      simp only [Prod.mk.injEq, Completion.alerted.injEq] at h
      exact k1 (by simp [h.2])
    | threw e => simp at h
  next => simp at h

/-- What an accepted submission did: the record of its kind was built from the
form, pushed at the end of the list, and the list was written to the slot. -/
theorem App.newWorkout_normal (w w2 : World) (f : Form) (clk : Clock)
    (h : App._newWorkout w f clk = (w2, .normal)) :
    ∃ latlng xs r, w.mapEvent = some latlng ∧
      ((f.type = "running" ∧
          r = Running.new clk latlng.toCoords f.distance f.duration f.cadence) ∨
        (f.type = "cycling" ∧
          r = Cycling.new clk latlng.toCoords f.distance f.duration f.elevation)) ∧
      w.workouts = .arr xs ∧ w2.workouts = .arr (xs ++ [r]) ∧
      w2.storage = some (.json (.arr (JSON.stringifyElems (xs ++ [r])))) := by
  cases hev : w.mapEvent with
  | none => simp [App._newWorkout, hev] at h
  | some latlng =>
    rw [App.newWorkout_eq w f clk latlng hev] at h
    split_ifs at h with hr b hc b2
    · simp at h
    · obtain ⟨xs, k1, k2, k3⟩ := App.pushAndRender_normal w w2 _ h
      exact ⟨latlng, xs, _, rfl, Or.inl ⟨hr, rfl⟩, k1, k2, k3⟩
    · simp at h
    · obtain ⟨xs, k1, k2, k3⟩ := App.pushAndRender_normal w w2 _ h
      exact ⟨latlng, xs, _, rfl, Or.inr ⟨hc, rfl⟩, k1, k2, k3⟩
    · exact absurd h (App.pushAndRender_undefined w w2)

/-- A submission that ends with the alert changed nothing. -/
theorem App.newWorkout_alerted (w w2 : World) (f : Form) (clk : Clock) (msg : String)
    (h : App._newWorkout w f clk = (w2, .alerted msg)) : w2 = w := by
  cases hev : w.mapEvent with
  | none => simp [App._newWorkout, hev] at h
  | some latlng =>
    rw [App.newWorkout_eq w f clk latlng hev] at h
    split_ifs at h with hr b hc b2
    · simp only [Prod.mk.injEq] at h
      exact h.1.symm
    · exact absurd h (App.pushAndRender_not_alerted w w2 _ msg)
    · simp only [Prod.mk.injEq] at h
      exact h.1.symm
    · exact absurd h (App.pushAndRender_not_alerted w w2 _ msg)
    · exact absurd h (App.pushAndRender_not_alerted w w2 _ msg)

/-! ## Derived metrics (C1, C5) -/

/-- C1 (as amended): for a Running workout built with finite distance > 0 and
duration > 0, the stored `pace` equals distance / duration, as `calcPace`
computes it. -/
theorem C1_pace_is_distance_over_duration (clk : Clock) (coords : JSVal) (d t : ℚ)
    (cadence : JSNum) (_hd : 0 < d) (ht : 0 < t) :
    (Running.new clk coords (.fin d) (.fin t) cadence).get "pace" =
      .ok (.num (.fin (d / t))) := by
  have h0 : t ≠ 0 := ne_of_gt ht
  simp [Running.new, JSVal.get, List.lookup, Running.calcPace, JSNum.div, h0]

/-- C1, witness: distance 5 and duration 30 give the pace 1/6, and distance 5
and duration 25 give the pace 1/5. -/
theorem C1_pace_witness :
    (0 : ℚ) < 5 ∧ (0 : ℚ) < 30 ∧ (0 : ℚ) < 25 ∧
      Sample.run1.get "pace" = .ok (.num (.fin (1 / 6))) ∧
      (Running.new Sample.clock1 (.arr [.num (.fin 10), .num (.fin 20)]) (.fin 5) (.fin 25)
        (.fin 178)).get "pace" = .ok (.num (.fin (1 / 5))) := by
  have h30 := C1_pace_is_distance_over_duration Sample.clock1
    (.arr [.num (.fin 10), .num (.fin 20)]) 5 30 (.fin 178) (by norm_num) (by norm_num)
  have h25 := C1_pace_is_distance_over_duration Sample.clock1
    (.arr [.num (.fin 10), .num (.fin 20)]) 5 25 (.fin 178) (by norm_num) (by norm_num)
  refine ⟨by norm_num, by norm_num, by norm_num, ?_, ?_⟩
  · rw [Sample.run1, h30]
    norm_num
  · rw [h25]
    norm_num

/-- C1, counterexample to the claim as written: for the record `run1`, built
with distance 5 and duration 30, the stored pace is 1/6, not
duration / distance = 6. -/
theorem C1_counterexample :
    Sample.run1.get "pace" = .ok (.num (.fin (1 / 6))) ∧
      Sample.run1.get "pace" ≠ .ok (.num (.fin (30 / 5))) := by
  constructor
  · simp [Sample.run1, Running.new, JSVal.get, List.lookup, Running.calcPace, JSNum.div]
    norm_num
  · simp [Sample.run1, Running.new, JSVal.get, List.lookup, Running.calcPace, JSNum.div]
    norm_num

/-- C5: for a Cycling workout built with finite distance > 0 and duration > 0,
the stored `speed` equals distance / (duration / 60). -/
theorem C5_speed_is_distance_over_hours (clk : Clock) (coords : JSVal) (d t : ℚ)
    (elevationGain : JSNum) (_hd : 0 < d) (ht : 0 < t) :
    (Cycling.new clk coords (.fin d) (.fin t) elevationGain).get "speed" =
      .ok (.num (.fin (d / (t / 60)))) := by
  have h0 : t ≠ 0 := ne_of_gt ht
  simp [Cycling.new, JSVal.get, List.lookup, Cycling.calcSpeed, JSNum.div, h0]

/-- C5, witness: distance 20 and duration 60 give the speed 20. -/
theorem C5_speed_witness :
    (0 : ℚ) < 20 ∧ (0 : ℚ) < 60 ∧ Sample.cyc2.get "speed" = .ok (.num (.fin 20)) := by
  refine ⟨by norm_num, by norm_num, ?_⟩
  have h := C5_speed_is_distance_over_hours Sample.clock2
    (.arr [.num (.fin 10), .num (.fin 20)]) 20 60 (.fin 0) (by norm_num) (by norm_num)
  rw [Sample.cyc2, h]
  norm_num

/-! ## The sign of the elevation (C4) -/

/-- C4 (as amended): on an open form with the map loaded, a cycling submission
with finite distance > 0 and finite duration > 0 is accepted, and its Cycling
record appended, if and only if the elevation gain is finite; zero and negative
elevations are accepted alike. -/
theorem C4_cycling_accepted_iff_elevation_finite (w : World) (f : Form) (clk : Clock)
    (latlng : LatLng) (m : LMap) (ws : List JSVal) (d t : ℚ)
    (hev : w.mapEvent = some latlng) (hmap : w.map = some m)
    (hws : w.workouts = .arr ws) (hty : f.type = "cycling")
    (hd : f.distance = .fin d) (ht : f.duration = .fin t) (hd0 : 0 < d) (ht0 : 0 < t) :
    ((App._newWorkout w f clk).2 = .normal ∧
      (App._newWorkout w f clk).1.workouts =
        .arr (ws ++ [Cycling.new clk latlng.toCoords f.distance f.duration f.elevation])) ↔
      f.elevation.isFinite = true := by
  have hne : ("cycling" : String) ≠ "running" := by decide
  rw [App.newWorkout_eq w f clk latlng hev, if_neg (by rw [hty]; exact hne), if_pos hty]
  cases he : f.elevation.isFinite with
  | false =>
    simp [App.validInputs, he]
  | true =>
    have hv : (!App.validInputs [f.distance, f.duration, f.elevation] ||
        !App.allPositive [f.distance, f.duration]) = false := by
      have fin_ok : ∀ q, (JSNum.fin q).isFinite = true := fun _ => rfl
      simp [App.validInputs, App.allPositive, he, hd, ht, fin_ok, JSNum.gtZero, hd0, ht0]
    simp [hv, App.pushAndRender, hws, App._renderWorkoutMarker, hmap, Cycling.new, JSVal.get,
      List.lookup, App._rendeWorkout, JSVal.strictEqStr, JSVal.toFixed, Except.bind,
      App._setLocalStorage, App._hideForm]

/-- C4, witness: 20 km in 60 min with an elevation gain of 0 is accepted. -/
theorem C4_cycling_witness :
    ((App._newWorkout Sample.awaiting (Sample.cycForm (.fin 0)) Sample.clock1).2 = .normal ∧
      (App._newWorkout Sample.awaiting (Sample.cycForm (.fin 0)) Sample.clock1).1.workouts =
        .arr ([] ++ [Cycling.new Sample.clock1 (LatLng.toCoords { lat := 10, lng := 20 })
          (.fin 20) (.fin 60) (.fin 0)])) ↔
      (JSNum.fin 0).isFinite = true :=
  C4_cycling_accepted_iff_elevation_finite Sample.awaiting (Sample.cycForm (.fin 0))
    Sample.clock1 { lat := 10, lng := 20 }
    { center := .arr [.num (.fin 1), .num (.fin 2)], zoom := 13,
      markers := [.here (.arr [.num (.fin 1), .num (.fin 2)])] }
    [] 20 60 rfl rfl rfl rfl rfl rfl (by norm_num) (by norm_num)

/-- C4, counterexample to the claim as written: 20 km in 60 min with an
elevation gain of -5 is accepted and its record appended, although -5 >= 0
fails. -/
theorem C4_counterexample :
    (App._newWorkout Sample.awaiting (Sample.cycForm (.fin (-5))) Sample.clock1).2 = .normal ∧
      (App._newWorkout Sample.awaiting (Sample.cycForm (.fin (-5))) Sample.clock1).1.workouts =
        .arr [Cycling.new Sample.clock1 (.arr [.num (.fin 10), .num (.fin 20)])
          (.fin 20) (.fin 60) (.fin (-5))] ∧
      (JSNum.fin (-5)).isFinite = true ∧ (JSNum.fin (-5)).geZero = false := by
  refine ⟨rfl, rfl, rfl, ?_⟩
  simp [JSNum.geZero]

/-! ## Append (C9) -/

/-- C9: when a submission is accepted on the workouts list `ws`, the list
afterwards is `ws` with the record built from the form added as the last
element: the length grows by one and every earlier position holds the record
it held. -/
theorem C9_append_monotonic (w w2 : World) (f : Form) (clk : Clock) (ws : List JSVal)
    (hws : w.workouts = .arr ws) (h : App._newWorkout w f clk = (w2, .normal)) :
    ∃ latlng r, w.mapEvent = some latlng ∧
      ((f.type = "running" ∧
          r = Running.new clk latlng.toCoords f.distance f.duration f.cadence) ∨
        (f.type = "cycling" ∧
          r = Cycling.new clk latlng.toCoords f.distance f.duration f.elevation)) ∧
      w2.workouts = .arr (ws ++ [r]) ∧
      (ws ++ [r]).length = ws.length + 1 ∧
      (∀ i, i < ws.length → (ws ++ [r])[i]? = ws[i]?) ∧
      (ws ++ [r])[ws.length]? = some r := by
  obtain ⟨latlng, xs, r, k0, k1, k2, k3, _⟩ := App.newWorkout_normal w w2 f clk h
  rw [hws] at k2
  cases k2
  refine ⟨latlng, r, k0, k1, k3, by simp, ?_, by simp⟩
  intro i hi
  exact List.getElem?_append_left hi

/-- C9, witness: the running submission `runForm` on the open form. -/
theorem C9_append_witness :
    Sample.awaiting.workouts = .arr [] ∧
      ∃ latlng r, Sample.awaiting.mapEvent = some latlng ∧
        ((Sample.runForm.type = "running" ∧
            r = Running.new Sample.clock1 latlng.toCoords Sample.runForm.distance
              Sample.runForm.duration Sample.runForm.cadence) ∨
          (Sample.runForm.type = "cycling" ∧
            r = Cycling.new Sample.clock1 latlng.toCoords Sample.runForm.distance
              Sample.runForm.duration Sample.runForm.elevation)) ∧
        (App._newWorkout Sample.awaiting Sample.runForm Sample.clock1).1.workouts =
          .arr ([] ++ [r]) ∧
        ([] ++ [r]).length = ([] : List JSVal).length + 1 ∧
        (∀ i, i < ([] : List JSVal).length → ([] ++ [r])[i]? = ([] : List JSVal)[i]?) ∧
        ([] ++ [r])[([] : List JSVal).length]? = some r :=
  ⟨rfl,
    C9_append_monotonic Sample.awaiting
      (App._newWorkout Sample.awaiting Sample.runForm Sample.clock1).1 Sample.runForm
      Sample.clock1 [] rfl rfl⟩

/-! ## Sample states -/

theorem Sample.idle_eq :
    App.new { slot := none, geolocation := true, formHidden := true } =
      (Sample.idle, .normal) := rfl

theorem Sample.idle_reached : Reached false Sample.idle :=
  Reached.startup { slot := none, geolocation := true, formHidden := true } Sample.idle
    Sample.idle_eq

theorem Sample.awaiting_eq :
    (App.onMapClick
      (App.onPosition (App.new { slot := none, geolocation := true, formHidden := true }).1
        { lat := 1, lng := 2 }).1
      { lat := 10, lng := 20 }).1 = Sample.awaiting := rfl

theorem Sample.logged1_eq :
    App._newWorkout Sample.awaiting Sample.runForm Sample.clock1 =
      (Sample.logged1, .normal) := rfl

theorem Sample.logged2_eq :
    App._newWorkout (App.onMapClick Sample.logged1 { lat := 10, lng := 20 }).1
      (Sample.cycForm (.fin 0)) Sample.clock2 = (Sample.logged2, .normal) := rfl

theorem Sample.awaiting_reached : Reached false Sample.awaiting := by
  have h0 : Reached false
      (App.new { slot := none, geolocation := true, formHidden := true }).1 :=
    Reached.startup { slot := none, geolocation := true, formHidden := true } _ rfl
  have h1 := Reached.position false _ { lat := 1, lng := 2 } h0
  have h2 := Reached.mapClick false _ { lat := 10, lng := 20 } h1
  rw [Sample.awaiting_eq] at h2
  exact h2

theorem Sample.logged1_reached : Reached true Sample.logged1 :=
  Reached.accepted false Sample.awaiting Sample.logged1 Sample.runForm Sample.clock1
    Sample.awaiting_reached Sample.logged1_eq

/-! ## Invalid submissions (C3) -/

/-- C3 (as amended): a running submission in which distance, duration or
cadence is <= 0 or not finite, and a cycling submission in which distance or
duration is <= 0 or distance, duration or elevation is not finite, appends no
record and leaves the whole state, the workouts list and the stored snapshot
included, as it was. When a place on the map has been chosen it ends with the
alert `Input is not valid!`; when none has been chosen it throws a `TypeError`
before the validation. -/
theorem C3_invalid_submission_changes_nothing (w : World) (f : Form) (clk : Clock)
    (hbad :
      (f.type = "running" ∧
        (f.distance.leZero = true ∨ f.duration.leZero = true ∨ f.cadence.leZero = true ∨
          f.distance.isFinite = false ∨ f.duration.isFinite = false ∨
          f.cadence.isFinite = false)) ∨
      (f.type = "cycling" ∧
        (f.distance.leZero = true ∨ f.duration.leZero = true ∨
          f.distance.isFinite = false ∨ f.duration.isFinite = false ∨
          f.elevation.isFinite = false))) :
    (App._newWorkout w f clk).1 = w ∧
      (App._newWorkout w f clk).1.workouts = w.workouts ∧
      (App._newWorkout w f clk).1.storage = w.storage ∧
      (∀ latlng, w.mapEvent = some latlng →
        (App._newWorkout w f clk).2 = .alerted "Input is not valid!") ∧
      (w.mapEvent = none → (App._newWorkout w f clk).2 = .threw .typeError) := by
  have hne : ("cycling" : String) ≠ "running" := by decide
  cases hev : w.mapEvent with
  | none =>
    have key : App._newWorkout w f clk = (w, .threw .typeError) := by
      simp [App._newWorkout, hev]
    rw [key]
    exact ⟨rfl, rfl, rfl, fun _ h => by simp at h, fun _ => rfl⟩
  | some latlng =>
    have key : App._newWorkout w f clk = (w, .alerted "Input is not valid!") := by
      rw [App.newWorkout_eq w f clk latlng hev]
      rcases hbad with ⟨hr, h⟩ | ⟨hc, h⟩
      · rw [if_pos hr, if_pos]
        rcases h with h | h | h | h | h | h <;>
          first
          | simp [App.validInputs, App.allPositive, JSNum.gtZero_of_leZero _ h]
          | simp [App.validInputs, App.allPositive, h]
      · rw [if_neg (by rw [hc]; exact hne), if_pos hc, if_pos]
        rcases h with h | h | h | h | h <;>
          first
          | simp [App.validInputs, App.allPositive, JSNum.gtZero_of_leZero _ h]
          | simp [App.validInputs, App.allPositive, h]
    rw [key]
    exact ⟨rfl, rfl, rfl, fun _ _ => rfl, fun h => by simp at h⟩

/-- C3, witness: the running submission `badForm`, with distance 0, on the
open form and on the page where no place has been chosen. -/
theorem C3_invalid_submission_witness :
    (Sample.badForm.type = "running" ∧ Sample.badForm.distance.leZero = true) ∧
      App._newWorkout Sample.awaiting Sample.badForm Sample.clock1 =
        (Sample.awaiting, .alerted "Input is not valid!") ∧
      App._newWorkout Sample.idle Sample.badForm Sample.clock1 =
        (Sample.idle, .threw .typeError) := by
  have hbad :
      (Sample.badForm.type = "running" ∧
        (Sample.badForm.distance.leZero = true ∨ Sample.badForm.duration.leZero = true ∨
          Sample.badForm.cadence.leZero = true ∨ Sample.badForm.distance.isFinite = false ∨
          Sample.badForm.duration.isFinite = false ∨
          Sample.badForm.cadence.isFinite = false)) ∨
      (Sample.badForm.type = "cycling" ∧
        (Sample.badForm.distance.leZero = true ∨ Sample.badForm.duration.leZero = true ∨
          Sample.badForm.distance.isFinite = false ∨
          Sample.badForm.duration.isFinite = false ∨
          Sample.badForm.elevation.isFinite = false)) :=
    Or.inl ⟨rfl, Or.inl (by decide)⟩
  have h1 := C3_invalid_submission_changes_nothing Sample.awaiting Sample.badForm
    Sample.clock1 hbad
  have h2 := C3_invalid_submission_changes_nothing Sample.idle Sample.badForm
    Sample.clock1 hbad
  exact ⟨⟨rfl, by decide⟩, Prod.ext h1.1 (h1.2.2.2.1 _ rfl), Prod.ext h2.1 (h2.2.2.2.2 rfl)⟩

/-- C3, counterexample to the claim as written: on the page reached right
after startup, where no place on the map has been chosen, the submission
`badForm` with distance 0 ends with a `TypeError`, not with the alert. -/
theorem C3_counterexample :
    Reached false Sample.idle ∧
      Sample.badForm.type = "running" ∧ Sample.badForm.distance.leZero = true ∧
      App._newWorkout Sample.idle Sample.badForm Sample.clock1 =
        (Sample.idle, .threw .typeError) ∧
      (App._newWorkout Sample.idle Sample.badForm Sample.clock1).2 ≠
        .alerted "Input is not valid!" := by
  refine ⟨Sample.idle_reached, rfl, by decide, rfl, ?_⟩
  decide

/-! ## The handlers other than the submission keep the list and the slot -/

theorem App.forEachMarker_keeps (xs : List JSVal) (w : World) :
    (App.forEachMarker w xs).1.workouts = w.workouts ∧
    (App.forEachMarker w xs).1.storage = w.storage := by
  induction xs generalizing w with
  | nil => simp [App.forEachMarker]
  | cons x rest ih =>
    unfold App.forEachMarker
    have k := App.renderWorkoutMarker_keeps w x
    generalize App._renderWorkoutMarker w x = p at k
    obtain ⟨a, c⟩ := p
    cases c with
    | normal =>
      simp only at k ⊢
      rw [(ih a).1, (ih a).2]
      exact k
    | alerted msg => exact k
    | threw e => exact k

theorem App.onPosition_keeps (w : World) (p : LatLng) :
    (App.onPosition w p).1.workouts = w.workouts ∧
    (App.onPosition w p).1.storage = w.storage := by
  unfold App.onPosition
  split
  · unfold App._loadMap
    simp only
    split
    next xs hxs =>
      rw [(App.forEachMarker_keeps xs _).1, (App.forEachMarker_keeps xs _).2]
      simp
    next => simp
  · simp

theorem App.onMapClick_keeps (w : World) (p : LatLng) :
    (App.onMapClick w p).1.workouts = w.workouts ∧
    (App.onMapClick w p).1.storage = w.storage := by
  unfold App.onMapClick
  split <;> simp [App._showForm]

theorem App.moveToPopup_keeps (w : World) (target : Option String) :
    (App._moveToPopup w target).1.workouts = w.workouts ∧
    (App._moveToPopup w target).1.storage = w.storage := by
  unfold App._moveToPopup
  split
  · simp
  · split
    · simp
    · split
      · simp
      · split <;> simp

/-- The search finds nothing, or throws on an element without properties,
when no element carries the id. -/
theorem App.find_absent (ws : List JSVal) (id : String)
    (hno : ∀ r ∈ ws, r.get "id" ≠ .ok (.str id)) :
    App.find ws id = .ok .undefined ∨ App.find ws id = .error .typeError := by
  induction ws with
  | nil => exact Or.inl rfl
  | cons x rest ih =>
    unfold App.find
    have hx := hno x (List.mem_cons_self x rest)
    have hrest := ih (fun r hr => hno r (List.mem_cons_of_mem x hr))
    cases hg : x.get "id" with
    | error e =>
      cases e with
      | typeError => exact Or.inr rfl
      | syntaxError =>
        exfalso
        cases x <;> simp [JSVal.get] at hg
        split at hg <;> simp at hg
    | ok v =>
      simp only
      cases v with
      | str s =>
        have hs : s ≠ id := by
          intro e
          apply hx
          rw [hg, e]
        simp [JSVal.strictEqStr, hs, hrest]
      | _ => simpa [JSVal.strictEqStr] using hrest

/-- The search returns the first element that carries the id. -/
theorem App.find_first (r : JSVal) (rest : List JSVal) (id : String)
    (h : r.get "id" = .ok (.str id)) : App.find (r :: rest) id = .ok r := by
  simp [App.find, h, JSVal.strictEqStr]

/-! ## The list holds validated records and values read from the slot -/

theorem JSNum.fin_of_isFinite (n : JSNum) (h : n.isFinite = true) : ∃ q, n = .fin q := by
  cases n <;> simp_all [JSNum.isFinite]

theorem JSNum.pos_of_gtZero (q : ℚ) (h : (JSNum.fin q).gtZero = true) : 0 < q := by
  simpa [JSNum.gtZero] using h

theorem App.forEachRende_keeps (xs : List JSVal) (w : World) :
    (App.forEachRende w xs).1.workouts = w.workouts ∧
    (App.forEachRende w xs).1.storage = w.storage := by
  induction xs generalizing w with
  | nil => simp [App.forEachRende]
  | cons x rest ih =>
    unfold App.forEachRende
    have k := App.rendeWorkout_keeps w x
    generalize App._rendeWorkout w x = p at k
    obtain ⟨a, c⟩ := p
    cases c with
    | normal =>
      simp only at k ⊢
      rw [(ih a).1, (ih a).2]
      exact k
    | alerted msg => exact k
    | threw e => exact k

theorem JSVal.held_of_mem_ofJsonElems (ds : List Json) :
    ∀ r ∈ JSVal.ofJsonElems ds, Held r := by
  induction ds with
  | nil => simp [JSVal.ofJsonElems]
  | cons d rest ih =>
    intro r hr
    simp only [JSVal.ofJsonElems, List.mem_cons] at hr
    rcases hr with h | h
    · rw [h]
      exact Held.loaded d
    · exact ih r h

/-- After the constructor of `App` has returned, the list holds values read
from the slot only. -/
theorem App.new_held (page : Page) (w : World) (h : App.new page = (w, .normal)) :
    ∃ ws, w.workouts = .arr ws ∧ ∀ r ∈ ws, Held r := by
  unfold App.new App._getLocalStorage at h
  have hw : (App._getPosition (App.initial page) page.geolocation).workouts = .arr [] := by
    unfold App._getPosition App.initial
    split <;> rfl
  generalize App._getPosition (App.initial page) page.geolocation = w0 at h hw
  cases hs : w0.storage with
  | none =>
    simp [hs, JSON.parse, JSVal.truthy] at h
    subst h
    exact ⟨[], hw, by simp⟩
  | some txt =>
    cases txt with
    | malformed => simp [hs, JSON.parse] at h
    | json doc =>
      simp only [hs, JSON.parse] at h
      split at h
      · simp only [Prod.mk.injEq, and_true] at h
        subst h
        exact ⟨[], hw, by simp⟩
      · cases doc with
        | arr ds =>
          simp only [JSVal.ofJson] at h
          have k := congrArg (fun p => p.1.workouts) h
          simp only [(App.forEachRende_keeps _ _).1] at k
          exact ⟨JSVal.ofJsonElems ds, k.symm, JSVal.held_of_mem_ofJsonElems ds⟩
        | _ => simp [JSVal.ofJson] at h

theorem App.valid_of_not_rejected (xs ys : List JSNum)
    (b : ¬ (!App.validInputs xs || !App.allPositive ys) = true) :
    App.validInputs xs = true ∧ App.allPositive ys = true := by
  cases h1 : App.validInputs xs <;> cases h2 : App.allPositive ys <;> simp_all

/-- An accepted submission adds a record built from validated inputs. -/
theorem App.newWorkout_normal_held (w w2 : World) (f : Form) (clk : Clock)
    (h : App._newWorkout w f clk = (w2, .normal)) :
    ∃ xs r, w.workouts = .arr xs ∧ w2.workouts = .arr (xs ++ [r]) ∧ Held r := by
  cases hev : w.mapEvent with
  | none => simp [App._newWorkout, hev] at h
  | some latlng =>
    rw [App.newWorkout_eq w f clk latlng hev] at h
    split_ifs at h with hr b hc b2
    · simp at h
    · obtain ⟨xs, k1, k2, _⟩ := App.pushAndRender_normal w w2 _ h
      refine ⟨xs, _, k1, k2, ?_⟩
      obtain ⟨v, p⟩ := App.valid_of_not_rejected _ _ b
      simp only [App.validInputs, App.allPositive, List.all_cons, List.all_nil, Bool.and_true,
        Bool.and_eq_true] at v p
      obtain ⟨d, hd⟩ := JSNum.fin_of_isFinite _ v.1
      obtain ⟨t, ht⟩ := JSNum.fin_of_isFinite _ v.2.1
      obtain ⟨c, hc2⟩ := JSNum.fin_of_isFinite _ v.2.2
      rw [hd, ht, hc2] at p ⊢
      exact Held.running clk latlng d t c (Running.calcPace (.fin d) (.fin t))
        (JSNum.pos_of_gtZero d p.1)
        (JSNum.pos_of_gtZero t p.2.1) (JSNum.pos_of_gtZero c p.2.2)
    · simp at h
    · obtain ⟨xs, k1, k2, _⟩ := App.pushAndRender_normal w w2 _ h
      refine ⟨xs, _, k1, k2, ?_⟩
      obtain ⟨v, p⟩ := App.valid_of_not_rejected _ _ b2
      simp only [App.validInputs, App.allPositive, List.all_cons, List.all_nil, Bool.and_true,
        Bool.and_eq_true] at v p
      obtain ⟨d, hd⟩ := JSNum.fin_of_isFinite _ v.1
      obtain ⟨t, ht⟩ := JSNum.fin_of_isFinite _ v.2.1
      obtain ⟨e, he⟩ := JSNum.fin_of_isFinite _ v.2.2
      rw [hd, ht] at p
      rw [hd, ht, he]
      exact Held.cycling clk latlng d t e (Cycling.calcSpeed (.fin d) (.fin t))
        (JSNum.pos_of_gtZero d p.1)
        (JSNum.pos_of_gtZero t p.2)
    · exact absurd h (App.pushAndRender_undefined w w2)

/-- In every state reached from startup the workouts field is a list of
workouts as `Held` describes them. -/
theorem Reached.workouts_held (b : Bool) (w : World) (h : Reached b w) :
    ∃ ws, w.workouts = .arr ws ∧ ∀ r ∈ ws, Held r := by
  induction h with
  | startup page w h0 => exact App.new_held page w h0
  | position b w p _ ih => rw [(App.onPosition_keeps w p).1]; exact ih
  | mapClick b w p _ ih => rw [(App.onMapClick_keeps w p).1]; exact ih
  | listClick b w target _ ih => rw [(App.moveToPopup_keeps w target).1]; exact ih
  | rejected b w w2 f clk msg _ hstep ih =>
    rw [App.newWorkout_alerted w w2 f clk msg hstep]
    exact ih
  | accepted b w w2 f clk _ hstep ih =>
    obtain ⟨ws, hws, hheld⟩ := ih
    obtain ⟨xs, r, k1, k2, k3⟩ := App.newWorkout_normal_held w w2 f clk hstep
    rw [hws] at k1
    cases k1
    refine ⟨ws ++ [r], k2, ?_⟩
    intro x hx
    rcases List.mem_append.1 hx with h1 | h1
    · exact hheld x h1
    · rw [List.mem_singleton] at h1
      rw [h1]
      exact k3

/-! ## Reading the slot at startup (C6) -/

theorem JSVal.get_error (r : JSVal) (key : String) (e : JSError)
    (h : r.get key = .error e) : e = .typeError := by
  cases r <;> simp [JSVal.get] at h
  · exact h.symm
  · exact h.symm
  · split at h <;> simp at h

theorem JSVal.toFixed_error (v : JSVal) (e : JSError)
    (h : v.toFixed = .error e) : e = .typeError := by
  cases v <;> simp [JSVal.toFixed] at h <;> exact h.symm

theorem JSVal.metric_error (r : JSVal) (key : String) (c : Bool) (e : JSError)
    (h : (if c = true then (r.get key).bind JSVal.toFixed else .ok ()) = .error e) :
    e = .typeError := by
  cases c with
  | false => simp at h
  | true =>
    simp only [if_true] at h
    cases hg : r.get key with
    | error e2 =>
      rw [hg] at h
      simp only [Except.bind, Except.error.injEq] at h
      rw [← h]
      exact JSVal.get_error r key e2 hg
    | ok v =>
      rw [hg] at h
      exact JSVal.toFixed_error v e h

/-- The method `_rendeWorkout` either puts the item first in the list and
returns, or throws a `TypeError` and changes nothing. -/
theorem App.rendeWorkout_cases (w : World) (r : JSVal) :
    App._rendeWorkout w r = ({ w with list := r :: w.list }, .normal) ∨
      App._rendeWorkout w r = (w, .threw .typeError) := by
  unfold App._rendeWorkout
  cases hg : r.get "type" with
  | error e =>
    rw [JSVal.get_error r "type" e hg]
    exact Or.inr rfl
  | ok type =>
    simp only
    have h1 := JSVal.metric_error r "pace" (type.strictEqStr "running")
    generalize (if type.strictEqStr "running" = true then
      (r.get "pace").bind JSVal.toFixed else .ok ()) = a at h1
    cases a with
    | error e =>
      rw [h1 e rfl]
      exact Or.inr rfl
    | ok u =>
      simp only
      have h2 := JSVal.metric_error r "speed" (type.strictEqStr "cycling")
      generalize (if type.strictEqStr "cycling" = true then
        (r.get "speed").bind JSVal.toFixed else .ok ()) = b at h2
      cases b with
      | error e =>
        rw [h2 e rfl]
        exact Or.inr rfl
      | ok u2 => exact Or.inl rfl

/-- Whether `_rendeWorkout` throws depends on the workout only. -/
theorem App.rendeWorkout_completion (w w2 : World) (r : JSVal) :
    (App._rendeWorkout w r).2 = (App._rendeWorkout w2 r).2 := by
  unfold App._rendeWorkout
  cases r.get "type" with
  | error e => rfl
  | ok type =>
    simp only
    cases (if type.strictEqStr "running" = true then
      (r.get "pace").bind JSVal.toFixed else .ok ()) with
    | error e => rfl
    | ok u =>
      simp only
      cases (if type.strictEqStr "cycling" = true then
        (r.get "speed").bind JSVal.toFixed else .ok ()) with
      | error e => rfl
      | ok u2 => rfl

/-- The loop over a list every element of which can be rendered. -/
theorem App.forEachRende_all (w0 : World) (xs : List JSVal) (w : World)
    (h : ∀ r ∈ xs, (App._rendeWorkout w0 r).2 = .normal) :
    App.forEachRende w xs = ({ w with list := xs.reverse ++ w.list }, .normal) := by
  induction xs generalizing w with
  | nil => rfl
  | cons x rest ih =>
    have hx : (App._rendeWorkout w x).2 = .normal := by
      rw [App.rendeWorkout_completion w w0 x]
      exact h x (List.mem_cons_self x rest)
    unfold App.forEachRende
    rcases App.rendeWorkout_cases w x with k | k
    · rw [k]
      simp only
      rw [ih _ (fun r hr => h r (List.mem_cons_of_mem x hr))]
      simp
    · rw [k] at hx
      simp at hx

/-- The loop over a list with an element that cannot be rendered. -/
theorem App.forEachRende_some (w0 : World) (xs : List JSVal) (w : World)
    (h : ∃ r ∈ xs, (App._rendeWorkout w0 r).2 ≠ .normal) :
    (App.forEachRende w xs).2 = .threw .typeError := by
  induction xs generalizing w with
  | nil =>
    obtain ⟨r, hr, _⟩ := h
    simp at hr
  | cons x rest ih =>
    unfold App.forEachRende
    rcases App.rendeWorkout_cases w x with k | k
    · rw [k]
      simp only
      apply ih
      obtain ⟨r, hr, hn⟩ := h
      rcases List.mem_cons.1 hr with e | e
      · exfalso
        apply hn
        rw [e, App.rendeWorkout_completion w0 w x, k]
      · exact ⟨r, e, hn⟩
    · rw [k]

/-- C6 (as amended): `_getLocalStorage` returns without raising, and leaves
the state as it was, when the slot is absent or holds a falsy JSON document
(`null`, `false`, 0, the empty text); it returns without raising, with the list
read from the slot as the workouts list and every element rendered, when the
slot holds a JSON list each element of which `_rendeWorkout` can render. It
throws a `SyntaxError`, the state untouched, when the text in the slot is not a
JSON document; it throws a `TypeError`, after it has assigned the value read to
the workouts field, when the slot holds any other truthy JSON document that is
no list, or a list with an element that `_rendeWorkout` cannot render. -/
theorem C6_getLocalStorage_by_slot (w : World) :
    (w.storage = none → App._getLocalStorage w = (w, .normal)) ∧
    (w.storage = some .malformed → App._getLocalStorage w = (w, .threw .syntaxError)) ∧
    (∀ doc, w.storage = some (.json doc) → (JSVal.ofJson doc).truthy = false →
      App._getLocalStorage w = (w, .normal)) ∧
    (∀ doc, w.storage = some (.json doc) → (JSVal.ofJson doc).truthy = true →
      (∀ ds, doc ≠ .arr ds) →
      App._getLocalStorage w = ({ w with workouts := JSVal.ofJson doc }, .threw .typeError)) ∧
    (∀ ds, w.storage = some (.json (.arr ds)) →
      (∀ r ∈ JSVal.ofJsonElems ds, (App._rendeWorkout w r).2 = .normal) →
      App._getLocalStorage w =
        ({ w with workouts := .arr (JSVal.ofJsonElems ds),
                  list := (JSVal.ofJsonElems ds).reverse ++ w.list }, .normal)) ∧
    (∀ ds, w.storage = some (.json (.arr ds)) →
      (∃ r ∈ JSVal.ofJsonElems ds, (App._rendeWorkout w r).2 ≠ .normal) →
      (App._getLocalStorage w).2 = .threw .typeError ∧
        (App._getLocalStorage w).1.workouts = .arr (JSVal.ofJsonElems ds) ∧
        (App._getLocalStorage w).1.storage = w.storage) := by
  refine ⟨?_, ?_, ?_, ?_, ?_, ?_⟩
  · intro h
    simp [App._getLocalStorage, h, JSON.parse, JSVal.truthy]
  · intro h
    simp [App._getLocalStorage, h, JSON.parse]
  · intro doc h ht
    simp [App._getLocalStorage, h, JSON.parse, ht]
  · intro doc h ht hna
    simp only [App._getLocalStorage, h, JSON.parse, ht]
    cases doc with
    | arr ds => exact absurd rfl (hna ds)
    | _ => simp [JSVal.ofJson]
  · intro ds h hall
    simp only [App._getLocalStorage, h, JSON.parse, JSVal.ofJson, JSVal.truthy]
    simp only [Bool.not_true, Bool.false_eq_true, if_false]
    rw [App.forEachRende_all w _ _ hall]
  · intro ds h hsome
    simp only [App._getLocalStorage, h, JSON.parse, JSVal.ofJson, JSVal.truthy]
    simp only [Bool.not_true, Bool.false_eq_true, if_false]
    refine ⟨App.forEachRende_some w _ _ hsome, ?_, ?_⟩
    · rw [(App.forEachRende_keeps _ _).1]
    · rw [(App.forEachRende_keeps _ _).2]

/-- C6, witness: the six cases on the page at startup, with the slot absent,
with text that is no JSON document, with the documents 0 and 5, with the list
`[run1Read]` and with the list `[null]`. -/
theorem C6_getLocalStorage_witness :
    App._getLocalStorage (App.initial { slot := none, geolocation := true, formHidden := true }) =
      (App.initial { slot := none, geolocation := true, formHidden := true }, .normal) ∧
    App._getLocalStorage
        (App.initial { slot := some .malformed, geolocation := true, formHidden := true }) =
      (App.initial { slot := some .malformed, geolocation := true, formHidden := true },
        .threw .syntaxError) ∧
    App._getLocalStorage
        (App.initial
          { slot := some (.json (.num (.fin 0))), geolocation := true, formHidden := true }) =
      (App.initial
          { slot := some (.json (.num (.fin 0))), geolocation := true, formHidden := true },
        .normal) ∧
    App._getLocalStorage
        (App.initial
          { slot := some (.json (.num (.fin 5))), geolocation := true, formHidden := true }) =
      ({ App.initial
          { slot := some (.json (.num (.fin 5))), geolocation := true, formHidden := true }
          with workouts := .num (.fin 5) }, .threw .typeError) ∧
    App._getLocalStorage
        (App.initial
          { slot := some (.json (.arr (JSON.stringifyElems [Sample.run1]))),
            geolocation := true, formHidden := true }) =
      ({ App.initial
          { slot := some (.json (.arr (JSON.stringifyElems [Sample.run1]))),
            geolocation := true, formHidden := true }
          with workouts := .arr [Sample.run1Read], list := [Sample.run1Read] }, .normal) ∧
    (App._getLocalStorage
        (App.initial
          { slot := some (.json (.arr [.null])), geolocation := true,
            formHidden := true })).2 = .threw .typeError :=
  ⟨(C6_getLocalStorage_by_slot _).1 rfl,
    (C6_getLocalStorage_by_slot _).2.1 rfl,
    (C6_getLocalStorage_by_slot _).2.2.1 (.num (.fin 0)) rfl (by simp [JSVal.ofJson, JSVal.truthy]),
    (C6_getLocalStorage_by_slot _).2.2.2.1 (.num (.fin 5)) rfl
      (by simp [JSVal.ofJson, JSVal.truthy]) (fun ds h => by cases h),
    (C6_getLocalStorage_by_slot _).2.2.2.2.1 (JSON.stringifyElems [Sample.run1]) rfl
      (fun r hr => by
        have e : r = Sample.run1Read := by
          have : JSVal.ofJsonElems (JSON.stringifyElems [Sample.run1]) = [Sample.run1Read] := rfl
          rw [this, List.mem_singleton] at hr
          exact hr
        rw [e]
        rfl),
    ((C6_getLocalStorage_by_slot _).2.2.2.2.2 [.null] rfl
      ⟨.null, by simp [JSVal.ofJsonElems, JSVal.ofJson], by
        simp [App._rendeWorkout, JSVal.get]⟩).1⟩

/-- C6, counterexample to the claim as written: at startup with text in the
slot that is not a JSON document `_getLocalStorage` throws, and so does the
constructor of `App`; with the JSON document `5` in the slot it throws too, and
the workouts field then holds `5`, not the empty list. -/
theorem C6_counterexample :
    App._getLocalStorage
        (App.initial { slot := some .malformed, geolocation := true, formHidden := true }) =
      (App.initial { slot := some .malformed, geolocation := true, formHidden := true },
        .threw .syntaxError) ∧
    (App.new { slot := some .malformed, geolocation := true, formHidden := true }).2 =
      .threw .syntaxError ∧
    (App._getLocalStorage
        (App.initial
          { slot := some (.json (.num (.fin 5))), geolocation := true,
            formHidden := true })).2 = .threw .typeError ∧
    (App._getLocalStorage
        (App.initial
          { slot := some (.json (.num (.fin 5))), geolocation := true,
            formHidden := true })).1.workouts = .num (.fin 5) := by
  refine ⟨rfl, rfl, ?_, ?_⟩ <;>
    simp [App._getLocalStorage, App.initial, JSON.parse, JSVal.ofJson, JSVal.truthy]

/-! ## Clicks on the list (C7) -/

/-- C7 (as amended): when the `data-id` of the clicked list element is the id
of no record in the workouts list, `_moveToPopup` leaves the whole state as it
was, the map view and the workouts list included, but it does not return: it
throws a `TypeError`. -/
theorem C7_unknown_id_throws (w : World) (ws : List JSVal) (id : String)
    (hws : w.workouts = .arr ws) (hno : ∀ r ∈ ws, r.get "id" ≠ .ok (.str id)) :
    App._moveToPopup w (some id) = (w, .threw .typeError) := by
  unfold App._moveToPopup
  simp only [hws]
  rcases App.find_absent ws id hno with h | h
  · rw [h]
    simp only
    split
    · rfl
    · simp [JSVal.get]
  · rw [h]

/-- C7, witness: a click on an element with `data-id` 1234567890 when the list
holds the one record `run1`, whose id is 0000000000. -/
theorem C7_unknown_id_witness :
    Sample.logged1.workouts = .arr [Sample.run1] ∧
      (∀ r ∈ [Sample.run1], r.get "id" ≠ .ok (.str "1234567890")) ∧
      App._moveToPopup Sample.logged1 (some "1234567890") =
        (Sample.logged1, .threw .typeError) :=
  have hno : ∀ r ∈ [Sample.run1], r.get "id" ≠ .ok (.str "1234567890") := by
    intro r hr
    rw [List.mem_singleton] at hr
    subst hr
    simp [Sample.run1, Running.new, JSVal.get, List.lookup]
    decide
  ⟨rfl, hno, C7_unknown_id_throws Sample.logged1 [Sample.run1] "1234567890" rfl hno⟩

/-- C7, counterexample to the claim as written: the click of the witness does
not return normally. -/
theorem C7_counterexample :
    (App._moveToPopup Sample.logged1 (some "1234567890")).2 = .threw .typeError ∧
      (App._moveToPopup Sample.logged1 (some "1234567890")).2 ≠ .normal := by
  have h : (App._moveToPopup Sample.logged1 (some "1234567890")).2 = .threw .typeError := by
    decide
  exact ⟨h, by rw [h]; decide⟩

/-! ## Ids (C8) -/

/-- C8, the code at the failing input: two accepted submissions whose clock
readings are 10^10 ms apart give two different records with the same id, and
the search by the id of the second record returns the first. -/
theorem C8_ids_collide :
    Sample.clock1.now ≤ Sample.clock2.now ∧
      App._newWorkout Sample.awaiting Sample.runForm Sample.clock1 =
        (Sample.logged1, .normal) ∧
      App._newWorkout (App.onMapClick Sample.logged1 { lat := 10, lng := 20 }).1
        (Sample.cycForm (.fin 0)) Sample.clock2 = (Sample.logged2, .normal) ∧
      Sample.logged2.workouts = .arr [Sample.run1, Sample.cyc2] ∧
      Sample.run1.get "id" = .ok (.str "0000000000") ∧
      Sample.cyc2.get "id" = .ok (.str "0000000000") ∧
      Sample.run1.get "type" ≠ Sample.cyc2.get "type" ∧
      App.find [Sample.run1, Sample.cyc2] "0000000000" = .ok Sample.run1 := by
  have h1 : Sample.run1.get "id" = .ok (.str "0000000000") := by
    simp [Sample.run1, Running.new, JSVal.get, List.lookup]
    decide
  have h2 : Sample.cyc2.get "id" = .ok (.str "0000000000") := by
    simp [Sample.cyc2, Cycling.new, JSVal.get, List.lookup]
    decide
  refine ⟨by decide, rfl, rfl, rfl, h1, h2, ?_, App.find_first _ _ _ h1⟩
  simp [Sample.run1, Sample.cyc2, Running.new, Cycling.new, JSVal.get, List.lookup]

/-! ## The snapshot mirrors the list (C10) -/

/-- C10: in every state reached from startup through answers to the position
request, clicks on the map and on the list, and rejected and accepted
submissions, once a submission has been accepted the slot holds the document
`JSON.stringify` writes for the whole current workouts list. -/
theorem C10_snapshot_mirrors_list (w : World) (h : Reached true w) :
    ∃ doc, JSON.stringify w.workouts = some doc ∧ w.storage = some (.json doc) := by
  generalize hb : true = b at h
  induction h with
  | startup page w h0 => cases hb
  | position b w p _ ih =>
    rw [(App.onPosition_keeps w p).1, (App.onPosition_keeps w p).2]
    exact ih hb
  | mapClick b w p _ ih =>
    rw [(App.onMapClick_keeps w p).1, (App.onMapClick_keeps w p).2]
    exact ih hb
  | listClick b w target _ ih =>
    rw [(App.moveToPopup_keeps w target).1, (App.moveToPopup_keeps w target).2]
    exact ih hb
  | rejected b w w2 f clk msg _ hstep ih =>
    rw [App.newWorkout_alerted w w2 f clk msg hstep]
    exact ih hb
  | accepted b w w2 f clk _ hstep _ =>
    obtain ⟨_, xs, r, _, _, _, k2, k3⟩ := App.newWorkout_normal w w2 f clk hstep
    exact ⟨_, by rw [k2]; rfl, k3⟩

/-- C10, witness: after `runForm` was accepted on the open form, the slot
holds the document of the list `[run1]`. -/
theorem C10_snapshot_witness :
    Reached true Sample.logged1 ∧
      ∃ doc, JSON.stringify Sample.logged1.workouts = some doc ∧
        Sample.logged1.storage = some (.json doc) :=
  ⟨Sample.logged1_reached, C10_snapshot_mirrors_list Sample.logged1 Sample.logged1_reached⟩

/-! ## Writing the list and reading it back (C2) -/

mutual
theorem JSON.stringify_ofJson : ∀ doc : Json,
    ∃ j, JSON.stringify (JSVal.ofJson doc) = some j ∧
      JSVal.ofJson j = (JSVal.ofJson doc).nullified
  | .null => ⟨_, rfl, rfl⟩
  | .bool _ => ⟨_, rfl, rfl⟩
  | .num (.fin _) => ⟨_, rfl, rfl⟩
  | .num .nan => ⟨_, rfl, rfl⟩
  | .num .posInf => ⟨_, rfl, rfl⟩
  | .num .negInf => ⟨_, rfl, rfl⟩
  | .str _ => ⟨_, rfl, rfl⟩
  | .arr xs => by
    refine ⟨_, rfl, ?_⟩
    simp only [JSVal.ofJson, JSVal.nullified, JSON.stringifyElems_ofJsonElems xs]
  | .obj props => by
    refine ⟨_, rfl, ?_⟩
    simp only [JSVal.ofJson, JSVal.nullified, JSON.stringifyProps_ofJsonProps props]
theorem JSON.stringifyElems_ofJsonElems : ∀ xs : List Json,
    JSVal.ofJsonElems (JSON.stringifyElems (JSVal.ofJsonElems xs)) =
      JSVal.nullifiedElems (JSVal.ofJsonElems xs)
  | [] => rfl
  | x :: xs => by
    obtain ⟨j, h1, h2⟩ := JSON.stringify_ofJson x
    simp only [JSVal.ofJsonElems, JSON.stringifyElems, h1, h2, JSVal.nullifiedElems,
      JSON.stringifyElems_ofJsonElems xs]
theorem JSON.stringifyProps_ofJsonProps : ∀ props : List (String × Json),
    JSVal.ofJsonProps (JSON.stringifyProps (JSVal.ofJsonProps props)) =
      JSVal.nullifiedProps (JSVal.ofJsonProps props)
  | [] => rfl
  | (k, x) :: rest => by
    obtain ⟨j, h1, h2⟩ := JSON.stringify_ofJson x
    simp only [JSVal.ofJsonProps, JSON.stringifyProps, h1, h2, JSVal.nullifiedProps,
      JSON.stringifyProps_ofJsonProps rest]
end

/-- A value read from the slot holds no `Date`. -/
theorem JSVal.ofJson_get_not_date (doc : Json) (key : String) (ms : Int) :
    (JSVal.ofJson doc).get key ≠ .ok (.date ms) := by
  intro h
  cases doc with
  | obj props =>
    simp only [JSVal.ofJson, JSVal.get] at h
    split at h
    next v hv =>
      simp only [Except.ok.injEq] at h
      subst h
      induction props with
      | nil => simp [JSVal.ofJsonProps] at hv
      | cons p rest ih =>
        obtain ⟨k, x⟩ := p
        simp only [JSVal.ofJsonProps, List.lookup] at hv
        split at hv
        · simp only [Option.some.injEq] at hv
          cases x <;> simp [JSVal.ofJson] at hv
        · exact ih hv
    next => simp at h
  | _ => simp [JSVal.ofJson, JSVal.get] at h

/-- A value read from the slot is written and read back as itself, with `null`
for every number that is not finite. -/
theorem JSVal.ofJson_readsAs (doc : Json) :
    ∃ j, JSON.stringify (JSVal.ofJson doc) = some j ∧
      Workout.ReadsAs (JSVal.ofJson doc) (JSVal.ofJson j) := by
  obtain ⟨j, h1, h2⟩ := JSON.stringify_ofJson doc
  refine ⟨j, h1, ?_⟩
  unfold Workout.ReadsAs
  split
  next ms heq => exact absurd heq (JSVal.ofJson_get_not_date doc "date" ms)
  next => exact h2

/-- A Running record is written and read back with every field but the date,
and with `null` for a pace that is not finite. -/
theorem Running.record_readsAs (clk : Clock) (latlng : LatLng) (d t c : ℚ) (pace : JSNum) :
    ∃ j, JSON.stringify
        (Running.withPace clk latlng.toCoords (.fin d) (.fin t) (.fin c) pace) = some j ∧
      Workout.ReadsAs (Running.withPace clk latlng.toCoords (.fin d) (.fin t) (.fin c) pace)
        (JSVal.ofJson j) := by
  cases pace <;>
  · refine ⟨_, rfl, ?_⟩
    show _ ∧ ∀ key ∈ Workout.fields, _
    refine ⟨rfl, ?_⟩
    intro key hkey
    simp only [Workout.fields, List.mem_cons, List.mem_singleton, List.not_mem_nil,
      or_false] at hkey
    rcases hkey with rfl | rfl | rfl | rfl | rfl | rfl | rfl | rfl | rfl | rfl <;> rfl

/-- A Cycling record is written and read back with every field but the date,
and with `null` for a speed that is not finite. -/
theorem Cycling.ride_readsAs (clk : Clock) (latlng : LatLng) (d t e : ℚ) (speed : JSNum) :
    ∃ j, JSON.stringify
        (Cycling.withSpeed clk latlng.toCoords (.fin d) (.fin t) (.fin e) speed) = some j ∧
      Workout.ReadsAs (Cycling.withSpeed clk latlng.toCoords (.fin d) (.fin t) (.fin e) speed)
        (JSVal.ofJson j) := by
  cases speed <;>
  · refine ⟨_, rfl, ?_⟩
    show _ ∧ ∀ key ∈ Workout.fields, _
    refine ⟨rfl, ?_⟩
    intro key hkey
    simp only [Workout.fields, List.mem_cons, List.mem_singleton, List.not_mem_nil,
      or_false] at hkey
    rcases hkey with rfl | rfl | rfl | rfl | rfl | rfl | rfl | rfl | rfl | rfl <;> rfl

/-- The record `new Running(...)` is the record with the exact pace. -/
theorem Running.new_eq_withPace (clk : Clock) (coords : JSVal)
    (distance duration cadence : JSNum) :
    Running.new clk coords distance duration cadence =
      Running.withPace clk coords distance duration cadence
        (Running.calcPace distance duration) := rfl

/-- The record `new Cycling(...)` is the record with the exact speed. -/
theorem Cycling.new_eq_withSpeed (clk : Clock) (coords : JSVal)
    (distance duration elevationGain : JSNum) :
    Cycling.new clk coords distance duration elevationGain =
      Cycling.withSpeed clk coords distance duration elevationGain
        (Cycling.calcSpeed distance duration) := rfl

/-- Every workout the list can hold is written, and read back as `ReadsAs`
says. -/
theorem Held.readsAs (r : JSVal) (h : Held r) :
    ∃ j, JSON.stringify r = some j ∧ Workout.ReadsAs r (JSVal.ofJson j) := by
  cases h with
  | running clk latlng d t c pace _ _ _ => exact Running.record_readsAs clk latlng d t c pace
  | cycling clk latlng d t e speed _ _ => exact Cycling.ride_readsAs clk latlng d t e speed
  | loaded doc => exact JSVal.ofJson_readsAs doc

theorem Held.readsAs_list (ws : List JSVal) (h : ∀ r ∈ ws, Held r) :
    List.Forall₂ Workout.ReadsAs ws (JSVal.ofJsonElems (JSON.stringifyElems ws)) := by
  induction ws with
  | nil => exact List.Forall₂.nil
  | cons x rest ih =>
    obtain ⟨j, h1, h2⟩ := Held.readsAs x (h x (List.mem_cons_self x rest))
    simp only [JSON.stringifyElems, h1, JSVal.ofJsonElems]
    exact List.Forall₂.cons h2 (ih (fun r hr => h r (List.mem_cons_of_mem x hr)))

/-- C2 (as amended): for every list of workouts the App can hold, reading back
what `_setLocalStorage` wrote gives a list of the same length in which the
value at each position is the one `ReadsAs` describes. For a record built by
`_newWorkout`: id, coords, distance, duration, type, cadence, elevationGain,
pace, speed and description have the value the original had, but for a pace or
speed that is not finite, which is read back as `null`; the creation date, a
`Date` in the original, is the text `toISOString` gives for it. For a value
that had been read from the slot: the value itself, with `null` for every
number that is not finite. -/
theorem C2_read_back_keeps_fields_but_date (w : World) (ws : List JSVal)
    (h : ∀ r ∈ ws, Held r) :
    ∃ ws2, App.readBack w ws = .ok (.arr ws2) ∧ ws2.length = ws.length ∧
      List.Forall₂ Workout.ReadsAs ws ws2 := by
  refine ⟨JSVal.ofJsonElems (JSON.stringifyElems ws), ?_, ?_, Held.readsAs_list ws h⟩
  · simp [App.readBack, App._setLocalStorage, JSON.stringify, JSON.parse, JSVal.ofJson]
  · exact (List.Forall₂.length_eq (Held.readsAs_list ws h)).symm

/-- The sample records are records the App can hold. -/
theorem Sample.records_held : ∀ r ∈ [Sample.run1, Sample.cyc2, Sample.over1], Held r := by
  intro r hr
  simp only [List.mem_cons, List.mem_singleton, List.not_mem_nil, or_false] at hr
  rcases hr with h | h | h
  · subst h
    exact Held.running Sample.clock1 { lat := 10, lng := 20 } 5 30 178
      (Running.calcPace (.fin 5) (.fin 30)) (by norm_num) (by norm_num) (by norm_num)
  · subst h
    exact Held.cycling Sample.clock2 { lat := 10, lng := 20 } 20 60 0
      (Cycling.calcSpeed (.fin 20) (.fin 60)) (by norm_num) (by norm_num)
  · subst h
    exact Held.running Sample.clock1 { lat := 10, lng := 20 } (2 ^ 1000) (1 / 2 ^ 1000) 1
      .posInf (by positivity) (by positivity) (by norm_num)

/-- C2, witness: the list of the three sample records; the pace of `over1`,
an infinity, is read back as `null`. -/
theorem C2_read_back_witness :
    (∀ r ∈ [Sample.run1, Sample.cyc2, Sample.over1], Held r) ∧
      (∃ ws2,
        App.readBack Sample.logged2 [Sample.run1, Sample.cyc2, Sample.over1] =
          .ok (.arr ws2) ∧
        ws2.length = [Sample.run1, Sample.cyc2, Sample.over1].length ∧
        List.Forall₂ Workout.ReadsAs [Sample.run1, Sample.cyc2, Sample.over1] ws2) ∧
      Sample.over1.get "pace" = .ok (.num .posInf) ∧
      (JSVal.ofJsonElems (JSON.stringifyElems [Sample.over1])).map
        (fun r => r.get "pace") = [.ok .null] :=
  ⟨Sample.records_held,
    C2_read_back_keeps_fields_but_date Sample.logged2
      [Sample.run1, Sample.cyc2, Sample.over1] Sample.records_held,
    rfl, rfl⟩

/-- C2, counterexample to the claim as written: the list `[run1]` is read back
as `[run1Read]`, whose creation date is a text where `run1` holds a `Date`, so
the two lists are not equal in every field value. -/
theorem C2_counterexample :
    App.readBack Sample.logged1 [Sample.run1] = .ok (.arr [Sample.run1Read]) ∧
      Sample.run1.get "date" = .ok (.date 1700000000000) ∧
      Sample.run1Read.get "date" = .ok (.str "2023-11-14T22:13:20.000Z") ∧
      Sample.run1Read.get "date" ≠ Sample.run1.get "date" ∧
      App.readBack Sample.logged1 [Sample.run1] ≠ .ok (.arr [Sample.run1]) := by
  have h1 : App.readBack Sample.logged1 [Sample.run1] = .ok (.arr [Sample.run1Read]) := rfl
  refine ⟨h1, rfl, rfl, ?_, ?_⟩
  · simp [Sample.run1, Sample.run1Read, Running.new, JSVal.get, List.lookup]
  · rw [h1]
    simp [Sample.run1, Sample.run1Read, Running.new]

end WorkoutLists
